import Mathlib

/-! crowbard: the HTTP tunnel server (`cmd/crowbard/main.go`)

A shallow embedding of the three HTTP handlers of `crowbard`
(`authHandler`, `connectHandler`, `syncHandler`) as functions on an explicit
server state, followed by theorems about them.

* The two process-wide maps `nonceMap` and `workerMap` are the fields of `State`.
* Every handler writes exactly one envelope through the `crowbar.WriteHTTP*`
  helpers; the envelope is recorded as a `Reply`.
* The calls a handler makes to the outside world (`user.Authenticate`,
  `fmt.Printf`, `net.Dial`, `go socketWorker`, channel send and receive) are
  recorded, in program order, as a list of `Event`s.
* A buffered Go channel is a capacity together with the list of buffered
  elements; a send on a full channel or a receive on an empty one suspends the
  handler, which is recorded as an outcome without a reply and with the state
  unchanged.
-/

namespace Crowbard

/-- Byte strings (`[]byte`). -/
abbrev Bytes := List Nat

/-! ## `strconv.Atoi` -/

/-- The value of a decimal digit character, if it is one. -/
def digitVal (c : Char) : Option Nat :=
  if 48 ≤ c.toNat ∧ c.toNat ≤ 57 then some (c.toNat - 48) else none

/-- Reads a non-empty sequence of decimal digits, most significant first,
continuing from the accumulated value `acc`. -/
def parseDigits : List Char → Nat → Option Nat
  | [], acc => some acc
  | c :: cs, acc =>
    match digitVal c with
    | none => none
    | some d => parseDigits cs (acc * 10 + d)

/-- A model of Go's `strconv.Atoi` on a 64-bit platform: an optional sign `+`
or `-`, then one or more decimal digits and nothing else; a value that does not
fit in `int` is an error.  `none` is `err != nil`. -/
def atoi (s : String) : Option Int :=
  let body : List Char → Option Nat := fun cs =>
    match cs with
    | [] => none
    | _ => parseDigits cs 0
  let inRange : Int → Option Int := fun v =>
    if -(2 ^ 63 : Int) ≤ v ∧ v ≤ 2 ^ 63 - 1 then some v else none
  match s.toList with
  | [] => none
  | '-' :: cs => (body cs).bind fun n => inRange (-(n : Int))
  | '+' :: cs => (body cs).bind fun n => inRange (n : Int)
  | cs => (body cs).bind fun n => inRange (n : Int)

/-! ## Channels, workers and the server state -/

/-- A buffered channel `make(chan α, cap)`: its capacity and the elements
buffered in it, oldest first. -/
structure Chan (α : Type) where
  cap : Nat
  buf : List α
deriving DecidableEq, Repr

/-- The channel `make(chan α, n)`: empty, of capacity `n`. -/
def Chan.make {α : Type} (n : Nat) : Chan α := ⟨n, []⟩

/-- The send `ch <- x`: it completes, appending `x` at the tail, when the buffer
has room, and suspends the sender (`none`) when the buffer is full. -/
def Chan.send {α : Type} (ch : Chan α) (x : α) : Option (Chan α) :=
  if ch.buf.length < ch.cap then some { ch with buf := ch.buf ++ [x] } else none

/-- The receive `<-ch`: it completes with the oldest element, removing it, and
suspends the receiver (`none`) when the buffer is empty. -/
def Chan.recv {α : Type} (ch : Chan α) : Option (α × Chan α) :=
  match ch.buf with
  | [] => none
  | x :: rest => some (x, { ch with buf := rest })

/-- Modelled from the spec: the tag of a `workerCommand`, whose declaration is
not in `main.go`.  "Command (inbound queue element): tagged as "data" carrying a
byte payload." -/
inductive CommandTag
  | command_data
deriving DecidableEq, Repr

/-- Modelled from the spec: the tag of a `workerResponse`, whose declaration is
not in `main.go`.  "Response (outbound queue element): tagged as either "data"
or "quit"." -/
inductive ResponseTag
  | response_data
  | response_quit
deriving DecidableEq, Repr

/-- Modelled from the spec: the struct `workerCommand`, with the two fields
`main.go` sets (`command`, `extra`). -/
structure workerCommand where
  command : CommandTag
  extra : Bytes
deriving DecidableEq, Repr

/-- Modelled from the spec: the struct `workerResponse`, with the three fields
`main.go` reads (`response`, `extra_byte`, `extra_string`). -/
structure workerResponse where
  response : ResponseTag
  extra_byte : Bytes
  extra_string : String
deriving DecidableEq, Repr

/-- Modelled from the spec: the struct `worker`, with the four fields `main.go`
sets.  `Sock` is the type of an open connection (`net.Conn`).  A Go channel is a
reference; each channel is created by `connectHandler` and is stored only in
the worker it was made for, so its buffer is kept inside the worker record. -/
structure worker (Sock : Type) where
  remote : Sock
  commandChannel : Chan workerCommand
  responseChannel : Chan workerResponse
  uuid : String
deriving DecidableEq

/-- The process-wide state: `nonceMap` (`map[string][]byte`) and `workerMap`
(a map from UUID strings to workers). -/
structure State (Sock : Type) where
  nonceMap : String → Option Bytes
  workerMap : String → Option (worker Sock)

/-- The state at process start: both maps empty. -/
def State.init {Sock : Type} : State Sock := ⟨fun _ => none, fun _ => none⟩

/-- The map assignment `m[k] = v`. -/
def mapSet {V : Type} (m : String → Option V) (k : String) (v : V) : String → Option V :=
  fun x => if x = k then some v else m x

/-! ## Requests, replies, events -/

/-- The parts of an `*http.Request` the handlers read: the method, the URL
query (`r.URL.Query().Get`, which is `""` for an absent key), and the parsed
form (`r.Form[key]` after `r.ParseForm()`: absent, or a first value and the
remaining values). -/
structure Request where
  method : String
  query : String → String
  form : String → Option (String × List String)

/-- The envelope a handler writes: `crowbar.WriteHTTPError`, `WriteHTTPOK`,
`WriteHTTPData`, `WriteHTTPQuit`. -/
inductive Reply
  | error (msg : String)
  | ok (msg : String)
  | data (payload : Bytes)
  | quit (reason : String)
deriving DecidableEq, Repr

/-- The calls a handler makes besides writing its reply. -/
inductive Event (U Sock : Type)
  | authenticate (user : U) (nonce proof : Bytes)
  | print (text : String)
  | dial (network address : String)
  | goSocketWorker (w : worker Sock)
  | send (uuid : String) (c : workerCommand)
  | recv (uuid : String) (r : workerResponse)
deriving DecidableEq

/-- The result of running a handler: the envelope written (`none` while the
handler is suspended on a channel operation), the state it leaves, and the
calls it made. -/
structure Outcome (U Sock : Type) where
  reply : Option Reply
  state : State Sock
  events : List (Event U Sock)

/-- The collaborators of the handlers that are not in `main.go`: the account
store `UserGet`, the verification routine `user.Authenticate`, and
`base64.StdEncoding.Decode` (the decoded bytes `data[:n]`, or `none` when it
returns an error). -/
structure Env (U : Type) where
  UserGet : String → Option U
  Authenticate : U → Bytes → Bytes → Bool
  b64Decode : String → Option Bytes

variable {U Sock : Type}

/-! ## The handlers -/

/-- The handler `authHandler`.  `rnd` is what `rand.Read(nonce)` did: `none` for
an error, `some n` for the 16 bytes it stored. -/
def authHandler (env : Env U) (rnd : Option Bytes) (st : State Sock) (r : Request) :
    Outcome U Sock :=
  match rnd with
  | none => ⟨some (.error "Internal error."), st, []⟩
  | some nonce =>
    let username := r.query "username"
    match env.UserGet username with
    | none => ⟨some (.error "No such user."), st, []⟩
    | some _ =>
      ⟨some (.data nonce), { st with nonceMap := mapSet st.nonceMap username nonce }, []⟩

/-- The text `fmt.Sprintf("%s:%d", host, port)`. -/
def hostPort (host : String) (port : Int) : String :=
  host ++ ":" ++ toString port

/-- The handler `connectHandler`.  `newUuid` is the value of `uuid.New()`;
`dial network address` is what `net.Dial` returns: `none` for an error, `some c`
for the connection. -/
def connectHandler (env : Env U) (newUuid : String) (dial : String → String → Option Sock)
    (st : State Sock) (r : Request) : Outcome U Sock :=
  let remote_host := r.query "remote_host"
  if remote_host = "" then ⟨some (.error "Invalid host"), st, []⟩ else
  match atoi (r.query "remote_port") with
  | none => ⟨some (.error "Invalid port number."), st, []⟩
  | some remote_port =>
    if remote_port > 0xFFFF then ⟨some (.error "Invalid port number."), st, []⟩ else
    let username := r.query "username"
    if username = "" then ⟨some (.error "Invalid username"), st, []⟩ else
    match env.UserGet username with
    | none => ⟨some (.error "Invalid username"), st, []⟩
    | some user =>
      match st.nonceMap username with
      | none => ⟨some (.error "Invalid username"), st, []⟩
      | some nonce =>
        match env.b64Decode (r.query "proof") with
        | none => ⟨some (.error "Invalid nonce"), st, []⟩
        | some proof =>
          let authenticated := env.Authenticate user nonce proof
          if !authenticated then
            ⟨some (.error "Invalid nonce"), st, [.authenticate user nonce proof]⟩
          else
            let workerUuid := newUuid
            let commandChannel : Chan workerCommand := Chan.make 10
            let responseChannel : Chan workerResponse := Chan.make 10
            let printed : Event U Sock :=
              .print ("Connecting to " ++ hostPort remote_host remote_port ++ "...\n")
            let dialed : Event U Sock := .dial "tcp" (hostPort remote_host remote_port)
            match dial "tcp" (hostPort remote_host remote_port) with
            | none =>
              ⟨some (.error ("Could not connect to " ++ hostPort remote_host remote_port)), st,
                [.authenticate user nonce proof, printed, dialed]⟩
            | some remote =>
              let newWorker : worker Sock :=
                { remote := remote, commandChannel := commandChannel,
                  responseChannel := responseChannel, uuid := workerUuid }
              ⟨some (.ok workerUuid),
                { st with workerMap := mapSet st.workerMap workerUuid newWorker },
                [.authenticate user nonce proof, printed, dialed, .goSocketWorker newWorker]⟩

/-- The handler `syncHandler`. -/
def syncHandler (env : Env U) (st : State Sock) (r : Request) : Outcome U Sock :=
  let workerUuid := r.query "uuid"
  match st.workerMap workerUuid with
  | some worker =>
    if r.method = "POST" then
      match r.form "data" with
      | some (b64, _) =>
        match env.b64Decode b64 with
        | none => ⟨some (.error "Could not decode B64."), st, []⟩
        | some data =>
          let cmd : workerCommand := { command := .command_data, extra := data }
          match worker.commandChannel.send cmd with
          | none => ⟨none, st, []⟩
          | some ch =>
            ⟨some (.ok "Sent."),
              { st with workerMap := mapSet st.workerMap workerUuid { worker with commandChannel := ch } },
              [.send workerUuid cmd]⟩
      | none => ⟨some (.error "Data is required."), st, []⟩
    else
      match worker.responseChannel.recv with
      | none => ⟨none, st, []⟩
      | some (response, ch) =>
        let st1 : State Sock :=
          { st with workerMap := mapSet st.workerMap workerUuid { worker with responseChannel := ch } }
        match response.response with
        | .response_data => ⟨some (.data response.extra_byte), st1, [.recv workerUuid response]⟩
        | .response_quit => ⟨some (.quit response.extra_string), st1, [.recv workerUuid response]⟩
  | none => ⟨some (.error "No such UUID"), st, []⟩

/-! ## Sequential runs of the sync endpoint -/

/-- Runs `syncHandler` on the requests one after the other, each on the state
the previous one left, and collects the replies and the final state. -/
def syncRun (env : Env U) : State Sock → List Request → List (Option Reply) × State Sock
  | st, [] => ([], st)
  | st, r :: rs =>
    let o : Outcome U Sock := syncHandler env st r
    let rest := syncRun env o.state rs
    (o.reply :: rest.1, rest.2)

/-- A Push: `POST sync?uuid=<u>` with the form field `data=<b64>`. -/
def pushReq (u b64 : String) : Request where
  method := "POST"
  query := fun k => if k = "uuid" then u else ""
  form := fun k =>
    if k = "data" then some (b64, []) else if k = "uuid" then some (u, []) else none

/-- A Pull: `GET sync?uuid=<u>`. -/
def pullReq (u : String) : Request where
  method := "GET"
  query := fun k => if k = "uuid" then u else ""
  form := fun k => if k = "uuid" then some (u, []) else none

/-- The envelope `syncHandler` writes for a response taken from the outbound
queue (the `switch response.response` of the source). -/
def replyOf (r : workerResponse) : Reply :=
  match r.response with
  | .response_data => .data r.extra_byte
  | .response_quit => .quit r.extra_string

/-- The "data" command a Push enqueues for the decoded bytes. -/
def dataCommand (data : Bytes) : workerCommand :=
  { command := .command_data, extra := data }

/-! ## Classifying events -/

/-- Whether the event is a call of `net.Dial`. -/
def Event.isDial : Event U Sock → Bool
  | .dial _ _ => true
  | _ => false

/-- Whether the event starts a relay worker (`go socketWorker`). -/
def Event.isSpawn : Event U Sock → Bool
  | .goSocketWorker _ => true
  | _ => false

/-- Whether the event is a channel send or receive. -/
def Event.isChanOp : Event U Sock → Bool
  | .send _ _ => true
  | .recv _ _ => true
  | _ => false

/-! ## The relay worker and the reachable states -/

/-- Modelled from the spec: the drain-to-remote duty of the relay worker
(`socketWorker`, not in `main.go`): "repeatedly takes the next Command from the
inbound queue (blocking when empty)".  One step for session `u`; nothing
happens when the session does not exist or its inbound queue is empty. -/
def workerTake (st : State Sock) (u : String) : State Sock :=
  match st.workerMap u with
  | none => st
  | some w =>
    match w.commandChannel.recv with
    | none => st
    | some (_, ch) =>
      { st with workerMap := mapSet st.workerMap u { w with commandChannel := ch } }

/-- Modelled from the spec: the remote-to-outbound duty of the relay worker
(`socketWorker`, not in `main.go`): "enqueues them as "data" Responses onto the
outbound queue (blocking/backpressuring when the queue is full)", and the
"quit" response on termination.  One step for session `u`; nothing happens when
the session does not exist or its outbound queue is full. -/
def workerPut (st : State Sock) (u : String) (resp : workerResponse) : State Sock :=
  match st.workerMap u with
  | none => st
  | some w =>
    match w.responseChannel.send resp with
    | none => st
    | some ch =>
      { st with workerMap := mapSet st.workerMap u { w with responseChannel := ch } }

/-- One step of the server: a handler runs to its end (or suspends), or a relay
worker moves one element. -/
inductive Step (env : Env U) : State Sock → State Sock → Prop
  | auth (st : State Sock) (rnd : Option Bytes) (r : Request) :
      Step env st (authHandler env rnd st r).state
  | connect (st : State Sock) (newUuid : String) (dial : String → String → Option Sock)
      (r : Request) : Step env st (connectHandler env newUuid dial st r).state
  | sync (st : State Sock) (r : Request) : Step env st (syncHandler env st r).state
  | take (st : State Sock) (u : String) : Step env st (workerTake st u)
  | put (st : State Sock) (u : String) (resp : workerResponse) :
      Step env st (workerPut st u resp)

/-- The states the server can be in: the initial state and what steps lead to. -/
inductive Reachable (env : Env U) : State Sock → Prop
  | init : Reachable env State.init
  | step {s t : State Sock} : Reachable env s → Step env s t → Reachable env t

/-- Every registered session has both queues of capacity 10 and within it. -/
def QueuesBounded (st : State Sock) : Prop :=
  ∀ u w, st.workerMap u = some w →
    w.commandChannel.cap = 10 ∧ w.responseChannel.cap = 10 ∧
    w.commandChannel.buf.length ≤ 10 ∧ w.responseChannel.buf.length ≤ 10

/-! ## A concrete deployment, for evaluating the handlers -/

/-- The value of a character of the standard base64 alphabet. -/
def b64Val (c : Char) : Option Nat :=
  let n := c.toNat
  if 65 ≤ n ∧ n ≤ 90 then some (n - 65)
  else if 97 ≤ n ∧ n ≤ 122 then some (n - 71)
  else if 48 ≤ n ∧ n ≤ 57 then some (n + 4)
  else if n = 43 then some 62
  else if n = 47 then some 63
  else none

/-- Decodes padded standard base64, four characters at a time. -/
def b64Quanta : List Char → Option Bytes
  | [] => some []
  | a :: b :: c :: d :: rest =>
    match b64Val a, b64Val b with
    | some x, some y =>
      if c = '=' ∧ d = '=' ∧ rest = [] then some [(x * 4 + y / 16) % 256]
      else
        match b64Val c with
        | none => none
        | some z =>
          if d = '=' ∧ rest = [] then
            some [(x * 4 + y / 16) % 256, (y * 16 + z / 4) % 256]
          else
            match b64Val d, b64Quanta rest with
            | some t, some tail =>
              some ((x * 4 + y / 16) % 256 :: (y * 16 + z / 4) % 256 ::
                (z * 64 + t) % 256 :: tail)
            | _, _ => none
    | _, _ => none
  | _ => none

/-- A decoder for padded standard base64 text. -/
def stdDecode (s : String) : Option Bytes := b64Quanta s.toList

/-- A deployment with the single account `alice`, whose verification material
is the byte string `s`; a proof is the challenge followed by the material. -/
def aliceEnv : Env Bytes where
  UserGet := fun name => if name = "alice" then some [115] else none
  Authenticate := fun secret nonce proof => decide (proof = nonce ++ secret)
  b64Decode := stdDecode

/-- Sixteen bytes, as `rand.Read` might store them. -/
def nonceA : Bytes := [0, 1, 2, 3, 4, 5, 6, 7, 8, 9, 10, 11, 12, 13, 14, 15]

/-- Another sixteen bytes. -/
def nonceB : Bytes := [16, 17, 18, 19, 20, 21, 22, 23, 24, 25, 26, 27, 28, 29, 30, 31]

/-- The request `GET auth?username=alice`. -/
def authReq : Request where
  method := "GET"
  query := fun k => if k = "username" then "alice" else ""
  form := fun _ => none

/-- The request `GET connect?remote_host=<host>&remote_port=<port>&username=<name>&proof=<b64>`. -/
def connectReq (host port name proof : String) : Request where
  method := "GET"
  query := fun k =>
    if k = "remote_host" then host
    else if k = "remote_port" then port
    else if k = "username" then name
    else if k = "proof" then proof
    else ""
  form := fun _ => none

/-- The base64 text of `nonceA` followed by `s`: the proof for challenge `nonceA`. -/
def proofA : String := "AAECAwQFBgcICQoLDA0OD3M="

/-- The state after `alice` has been issued the challenge `nonceA`. -/
def stChallenged : State Nat := (authHandler aliceEnv (some nonceA) State.init authReq).state

/-- A `net.Dial` that reaches every address, giving connection `7`. -/
def dialOk : String → String → Option Nat := fun _ _ => some 7

/-- A `net.Dial` that fails for every address. -/
def dialFail : String → String → Option Nat := fun _ _ => none

/-- The state after `alice` opened a session, which got the UUID `u-1`. -/
def stSession : State Nat :=
  (connectHandler aliceEnv "u-1" dialOk stChallenged
    (connectReq "example.org" "80" "alice" proofA)).state

/-- The state after the relay worker of session `u-1` has read the byte `x`
from the remote socket and enqueued it. -/
def stRemoteSpoke : State Nat :=
  workerPut stSession "u-1" { response := .response_data, extra_byte := [120], extra_string := "" }

/-! ## Basic facts about maps and channels -/

theorem mapSet_same {V : Type} (m : String → Option V) (k : String) (v : V) :
    mapSet m k v k = some v := by
  simp [mapSet]

theorem mapSet_other {V : Type} (m : String → Option V) (k x : String) (v : V) (h : x ≠ k) :
    mapSet m k v x = m x := by
  simp [mapSet, h]

theorem mapSet_mapSet {V : Type} (m : String → Option V) (k : String) (v v2 : V) :
    mapSet (mapSet m k v) k v2 = mapSet m k v2 := by
  funext x
  by_cases h : x = k <;> simp [mapSet, h]

theorem mapSet_self {V : Type} (m : String → Option V) (k : String) (v : V) (h : m k = some v) :
    mapSet m k v = m := by
  funext x
  by_cases hx : x = k
  · subst hx; simp [mapSet, h]
  · simp [mapSet, hx]

/-! ## The sync endpoint -/

/-- C4: a sync request whose uuid is not a key of the session table, whatever
its method, is answered with the error envelope `No such UUID`; the handler
performs no channel operation (it records no event at all), it is not
suspended, and it leaves the state, hence every queue, as it was. -/
theorem syncHandler_unknown_uuid (env : Env U) (st : State Sock) (r : Request)
    (h : st.workerMap (r.query "uuid") = none) :
    (syncHandler env st r).reply = some (.error "No such UUID") ∧
    (syncHandler env st r).events = [] ∧
    (syncHandler env st r).state = st := by
  simp [syncHandler, h]

theorem syncHandler_unknown_uuid_witness :
    stSession.workerMap ((pushReq "u-2" "YQ==").query "uuid") = none ∧
    (syncHandler aliceEnv stSession (pushReq "u-2" "YQ==")).reply
      = some (.error "No such UUID") ∧
    (syncHandler aliceEnv stSession (pushReq "u-2" "YQ==")).events = [] ∧
    (syncHandler aliceEnv stSession (pushReq "u-2" "YQ==")).state = stSession :=
  ⟨by decide, syncHandler_unknown_uuid aliceEnv stSession (pushReq "u-2" "YQ==") (by decide)⟩

/-- C7: a Pull (a sync call whose method is not POST) on a registered session
whose outbound queue is `r1 :: rest` removes exactly `r1`, leaves `rest` in
order and the rest of the session (its inbound queue included) and every other
session as they were, and replies with `r1`: a data envelope with its bytes when
it is tagged "data", a quit envelope with its reason when it is tagged "quit". -/
theorem syncHandler_pull (env : Env U) (st : State Sock) (r : Request) (w : worker Sock)
    (r1 : workerResponse) (rest : List workerResponse)
    (hw : st.workerMap (r.query "uuid") = some w) (hm : r.method ≠ "POST")
    (hq : w.responseChannel.buf = r1 :: rest) :
    (syncHandler env st r).state =
      { st with workerMap := (mapSet st.workerMap (r.query "uuid")
          { w with responseChannel := { w.responseChannel with buf := rest } }) } ∧
    (r1.response = .response_data →
      (syncHandler env st r).reply = some (.data r1.extra_byte)) ∧
    (r1.response = .response_quit →
      (syncHandler env st r).reply = some (.quit r1.extra_string)) ∧
    (syncHandler env st r).events = [.recv (r.query "uuid") r1] := by
  cases hr : r1.response <;> simp [syncHandler, hw, hm, Chan.recv, hq, hr]

theorem syncHandler_pull_witness :
    stRemoteSpoke.workerMap ((pullReq "u-1").query "uuid")
      = some ⟨7, ⟨10, []⟩, ⟨10, [⟨.response_data, [120], ""⟩]⟩, "u-1"⟩ ∧
    (syncHandler aliceEnv stRemoteSpoke (pullReq "u-1")).reply = some (.data [120]) ∧
    (syncHandler aliceEnv stRemoteSpoke (pullReq "u-1")).events
      = [.recv "u-1" ⟨.response_data, [120], ""⟩] :=
  have h := syncHandler_pull aliceEnv stRemoteSpoke (pullReq "u-1")
    ⟨7, ⟨10, []⟩, ⟨10, [⟨.response_data, [120], ""⟩]⟩, "u-1"⟩ ⟨.response_data, [120], ""⟩ []
    (by decide) (by decide) rfl
  ⟨by decide, h.2.1 rfl, h.2.2.2⟩

/-! ## The connect endpoint -/

theorem connectHandler_nonceMap (env : Env U) (newUuid : String)
    (dial : String → String → Option Sock) (st : State Sock) (r : Request) :
    (connectHandler env newUuid dial st r).state.nonceMap = st.nonceMap := by
  unfold connectHandler
  simp only
  repeat' split
  all_goals rfl

theorem connectHandler_congr (env : Env U) (newUuid : String)
    (dial : String → String → Option Sock) (st1 st2 : State Sock) (r : Request)
    (h : st1.nonceMap = st2.nonceMap) :
    (connectHandler env newUuid dial st1 r).reply = (connectHandler env newUuid dial st2 r).reply ∧
    (connectHandler env newUuid dial st1 r).events
      = (connectHandler env newUuid dial st2 r).events := by
  unfold connectHandler
  simp only [h]
  repeat' split
  all_goals exact ⟨rfl, rfl⟩

/-- C9: whatever the request and however the call ends, `connectHandler` leaves
the challenge table as it was; a second connect call with the same request,
made on the state the first one left, therefore replies and makes the same
calls (the same `user.Authenticate(nonce, proof)` among them) as it would have
on the state before the first. -/
theorem connectHandler_keeps_challenges (env : Env U) (newUuid : String)
    (dial : String → String → Option Sock) (st : State Sock) (r : Request) :
    (connectHandler env newUuid dial st r).state.nonceMap = st.nonceMap ∧
    ∀ (uuid2 : String) (dial2 : String → String → Option Sock),
      (connectHandler env uuid2 dial2 (connectHandler env newUuid dial st r).state r).reply
        = (connectHandler env uuid2 dial2 st r).reply ∧
      (connectHandler env uuid2 dial2 (connectHandler env newUuid dial st r).state r).events
        = (connectHandler env uuid2 dial2 st r).events :=
  ⟨connectHandler_nonceMap env newUuid dial st r, fun uuid2 dial2 =>
    connectHandler_congr env uuid2 dial2 _ st r (connectHandler_nonceMap env newUuid dial st r)⟩

theorem connectHandler_error_state (env : Env U) (newUuid : String)
    (dial : String → String → Option Sock) (st : State Sock) (r : Request) (msg : String)
    (h : (connectHandler env newUuid dial st r).reply = some (.error msg)) :
    (connectHandler env newUuid dial st r).state = st ∧
    ∀ e ∈ (connectHandler env newUuid dial st r).events, e.isSpawn = false := by
  revert h
  unfold connectHandler
  simp only
  repeat' split
  all_goals simp [Event.isSpawn]

theorem connectHandler_dial_failed (env : Env U) (newUuid : String)
    (dial : String → String → Option Sock) (st : State Sock) (r : Request)
    (port : Int) (user : U) (nonce proof : Bytes)
    (hhost : r.query "remote_host" ≠ "")
    (hport : atoi (r.query "remote_port") = some port) (hmax : port ≤ 0xFFFF)
    (hname : r.query "username" ≠ "")
    (huser : env.UserGet (r.query "username") = some user)
    (hnonce : st.nonceMap (r.query "username") = some nonce)
    (hproof : env.b64Decode (r.query "proof") = some proof)
    (hauth : env.Authenticate user nonce proof = true)
    (hdial : dial "tcp" (hostPort (r.query "remote_host") port) = none) :
    (connectHandler env newUuid dial st r).reply
      = some (.error ("Could not connect to " ++ hostPort (r.query "remote_host") port)) ∧
    (connectHandler env newUuid dial st r).state = st := by
  have hmax2 : ¬ port > 0xFFFF := not_lt.mpr hmax
  simp [connectHandler, hhost, hport, hmax2, hname, huser, hnonce, hproof, hauth, hdial]

/-- C10: a connect call that ends in an error envelope, whatever the cause,
leaves the state (the session table in particular) as it was and starts no
relay worker; and when the target, the account, the challenge and the proof are
all accepted but `net.Dial` fails, the reply is the error envelope
`Could not connect to <host>:<port>` and no session is registered. -/
theorem connectHandler_error_registers_nothing (env : Env U) (newUuid : String)
    (dial : String → String → Option Sock) (st : State Sock) (r : Request) :
    (∀ msg, (connectHandler env newUuid dial st r).reply = some (.error msg) →
      (connectHandler env newUuid dial st r).state.workerMap = st.workerMap ∧
      (connectHandler env newUuid dial st r).state = st ∧
      ∀ e ∈ (connectHandler env newUuid dial st r).events, e.isSpawn = false) ∧
    (∀ (port : Int) (user : U) (nonce proof : Bytes),
      r.query "remote_host" ≠ "" →
      atoi (r.query "remote_port") = some port → port ≤ 0xFFFF →
      r.query "username" ≠ "" →
      env.UserGet (r.query "username") = some user →
      st.nonceMap (r.query "username") = some nonce →
      env.b64Decode (r.query "proof") = some proof →
      env.Authenticate user nonce proof = true →
      dial "tcp" (hostPort (r.query "remote_host") port) = none →
      (connectHandler env newUuid dial st r).reply
        = some (.error ("Could not connect to " ++ hostPort (r.query "remote_host") port)) ∧
      (connectHandler env newUuid dial st r).state.workerMap = st.workerMap) := by
  refine ⟨fun msg h => ?_, ?_⟩
  · have := connectHandler_error_state env newUuid dial st r msg h
    exact ⟨by rw [this.1], this.1, this.2⟩
  · intro port user nonce proof h1 h2 h3 h4 h5 h6 h7 h8 h9
    have := connectHandler_dial_failed env newUuid dial st r port user nonce proof
      h1 h2 h3 h4 h5 h6 h7 h8 h9
    exact ⟨this.1, by rw [this.2]⟩

theorem connectHandler_error_registers_nothing_witness :
    (connectHandler aliceEnv "u-1" dialFail stChallenged
        (connectReq "example.org" "80" "alice" proofA)).reply
      = some (.error "Could not connect to example.org:80") ∧
    (connectHandler aliceEnv "u-1" dialFail stChallenged
        (connectReq "example.org" "80" "alice" proofA)).state.workerMap
      = stChallenged.workerMap ∧
    (∀ e ∈ (connectHandler aliceEnv "u-1" dialFail stChallenged
        (connectReq "example.org" "80" "alice" proofA)).events, e.isSpawn = false) :=
  have h := connectHandler_error_registers_nothing aliceEnv "u-1" dialFail stChallenged
    (connectReq "example.org" "80" "alice" proofA)
  have h2 := h.2 80 [115] nonceA (nonceA ++ [115]) (by decide) (by decide) (by decide)
    (by decide) (by decide) (by decide) (by decide) (by decide) rfl
  ⟨h2.1, h2.2, (h.1 _ h2.1).2.2⟩

theorem mapSet_isSome {V : Type} (m : String → Option V) (k x : String) (v : V)
    (h : (m x).isSome = true) : (mapSet m k v x).isSome = true := by
  by_cases hx : x = k <;> simp [mapSet, hx, h]

theorem authHandler_keeps_session (env : Env U) (rnd : Option Bytes) (st : State Sock)
    (r : Request) (u : String) (hu : (st.workerMap u).isSome = true) :
    ((authHandler env rnd st r).state.workerMap u).isSome = true := by
  unfold authHandler
  simp only
  repeat' split
  all_goals exact hu

theorem connectHandler_keeps_session (env : Env U) (newUuid : String)
    (dial : String → String → Option Sock) (st : State Sock) (r : Request) (u : String)
    (hu : (st.workerMap u).isSome = true) :
    ((connectHandler env newUuid dial st r).state.workerMap u).isSome = true := by
  unfold connectHandler
  simp only
  repeat' split
  all_goals first
    | exact hu
    | exact mapSet_isSome _ _ _ _ hu

theorem syncHandler_keeps_session (env : Env U) (st : State Sock) (r : Request) (u : String)
    (hu : (st.workerMap u).isSome = true) :
    ((syncHandler env st r).state.workerMap u).isSome = true := by
  unfold syncHandler
  simp only
  repeat' split
  all_goals first
    | exact hu
    | exact mapSet_isSome _ _ _ _ hu

theorem workerTake_keeps_session (st : State Sock) (v u : String)
    (hu : (st.workerMap u).isSome = true) : ((workerTake st v).workerMap u).isSome = true := by
  unfold workerTake
  repeat' split
  all_goals first
    | exact hu
    | exact mapSet_isSome _ _ _ _ hu

theorem workerPut_keeps_session (st : State Sock) (v u : String) (resp : workerResponse)
    (hu : (st.workerMap u).isSome = true) :
    ((workerPut st v resp).workerMap u).isSome = true := by
  unfold workerPut
  repeat' split
  all_goals first
    | exact hu
    | exact mapSet_isSome _ _ _ _ hu

theorem steps_keep_session (env : Env U) (s t : State Sock) (u : String)
    (h : Relation.ReflTransGen (Step env) s t) (hu : (s.workerMap u).isSome = true) :
    (t.workerMap u).isSome = true := by
  induction h with
  | refl => exact hu
  | tail _ hstep ih =>
    cases hstep with
    | auth rnd r => exact authHandler_keeps_session env rnd _ r u ih
    | connect newUuid dial r => exact connectHandler_keeps_session env newUuid dial _ r u ih
    | sync r => exact syncHandler_keeps_session env _ r u ih
    | take v => exact workerTake_keeps_session _ v u ih
    | put v resp => exact workerPut_keeps_session _ v u resp ih

theorem syncHandler_registered (env : Env U) (st : State Sock) (r : Request)
    (hu : (st.workerMap (r.query "uuid")).isSome = true) :
    (syncHandler env st r).reply ≠ some (.error "No such UUID") := by
  obtain ⟨w, hw⟩ := Option.isSome_iff_exists.mp hu
  unfold syncHandler
  simp only [hw]
  repeat' split
  all_goals simp

/-- C3: a connect call whose target, account, challenge and proof are accepted
and whose dial succeeds registers, under the UUID drawn from `uuid.New()`, a
session holding the dialed connection and two empty queues of capacity 10,
starts its relay worker, and replies with the success envelope carrying that
same UUID; a sync call with that UUID made right after, or after any further
steps of the server, finds the session and is not answered `No such UUID`. -/
theorem connectHandler_registers_session (env : Env U) (newUuid : String)
    (dial : String → String → Option Sock) (st : State Sock) (r : Request)
    (port : Int) (user : U) (nonce proof : Bytes) (remote : Sock)
    (hhost : r.query "remote_host" ≠ "")
    (hport : atoi (r.query "remote_port") = some port) (hmax : port ≤ 0xFFFF)
    (hname : r.query "username" ≠ "")
    (huser : env.UserGet (r.query "username") = some user)
    (hnonce : st.nonceMap (r.query "username") = some nonce)
    (hproof : env.b64Decode (r.query "proof") = some proof)
    (hauth : env.Authenticate user nonce proof = true)
    (hdial : dial "tcp" (hostPort (r.query "remote_host") port) = some remote) :
    (connectHandler env newUuid dial st r).reply = some (.ok newUuid) ∧
    (connectHandler env newUuid dial st r).state.workerMap newUuid
      = some ⟨remote, ⟨10, []⟩, ⟨10, []⟩, newUuid⟩ ∧
    (∀ u, u ≠ newUuid →
      (connectHandler env newUuid dial st r).state.workerMap u = st.workerMap u) ∧
    Event.goSocketWorker ⟨remote, ⟨10, []⟩, ⟨10, []⟩, newUuid⟩
      ∈ (connectHandler env newUuid dial st r).events ∧
    ∀ (st2 : State Sock),
      Relation.ReflTransGen (Step env) (connectHandler env newUuid dial st r).state st2 →
      ∀ (r2 : Request), r2.query "uuid" = newUuid →
        (syncHandler env st2 r2).reply ≠ some (.error "No such UUID") := by
  have hmax2 : ¬ port > 0xFFFF := not_lt.mpr hmax
  have hst : (connectHandler env newUuid dial st r).state
      = { st with workerMap := mapSet st.workerMap newUuid ⟨remote, ⟨10, []⟩, ⟨10, []⟩, newUuid⟩ } := by
    simp [connectHandler, hhost, hport, hmax2, hname, huser, hnonce, hproof, hauth, hdial,
      Chan.make]
  refine ⟨?_, ?_, ?_, ?_, ?_⟩
  · simp [connectHandler, hhost, hport, hmax2, hname, huser, hnonce, hproof, hauth, hdial]
  · rw [hst]; exact mapSet_same _ _ _
  · intro u hu; rw [hst]; exact mapSet_other _ _ _ _ hu
  · simp [connectHandler, hhost, hport, hmax2, hname, huser, hnonce, hproof, hauth, hdial,
      Chan.make]
  · intro st2 hsteps r2 hr2
    refine syncHandler_registered env st2 r2 ?_
    rw [hr2]
    refine steps_keep_session env _ st2 newUuid hsteps ?_
    rw [hst]
    simp [mapSet_same]

theorem connectHandler_registers_session_witness :
    (connectHandler aliceEnv "u-1" dialOk stChallenged
        (connectReq "example.org" "80" "alice" proofA)).reply = some (.ok "u-1") ∧
    (connectHandler aliceEnv "u-1" dialOk stChallenged
        (connectReq "example.org" "80" "alice" proofA)).state.workerMap "u-1"
      = some ⟨7, ⟨10, []⟩, ⟨10, []⟩, "u-1"⟩ ∧
    (syncHandler aliceEnv (connectHandler aliceEnv "u-1" dialOk stChallenged
        (connectReq "example.org" "80" "alice" proofA)).state (pullReq "u-1")).reply
      ≠ some (.error "No such UUID") :=
  have h := connectHandler_registers_session aliceEnv "u-1" dialOk stChallenged
    (connectReq "example.org" "80" "alice" proofA) 80 [115] nonceA (nonceA ++ [115]) 7
    (by decide) (by decide) (by decide) (by decide) (by decide) (by decide) (by decide)
    (by decide) rfl
  ⟨h.1, h.2.1, h.2.2.2.2 _ Relation.ReflTransGen.refl (pullReq "u-1") rfl⟩

theorem connectHandler_empty_host (env : Env U) (newUuid : String)
    (dial : String → String → Option Sock) (st : State Sock) (r : Request)
    (h : r.query "remote_host" = "") :
    connectHandler env newUuid dial st r = ⟨some (.error "Invalid host"), st, []⟩ := by
  simp [connectHandler, h]

theorem connectHandler_port_too_large (env : Env U) (newUuid : String)
    (dial : String → String → Option Sock) (st : State Sock) (r : Request) (port : Int)
    (hhost : r.query "remote_host" ≠ "")
    (hport : atoi (r.query "remote_port") = some port) (hbig : 0xFFFF < port) :
    connectHandler env newUuid dial st r = ⟨some (.error "Invalid port number."), st, []⟩ := by
  have hbig2 : port > 0xFFFF := hbig
  simp [connectHandler, hhost, hport, hbig2]

/-- C1: the port check of `connectHandler` is `remote_port > 0xFFFF` only.  On
`connect?remote_host=example.org&remote_port=-1&username=alice&proof=...`, with
`alice` holding a challenge and the proof matching it, `-1` parses, passes the
check, and the handler calls `net.Dial("tcp", "example.org:-1")`; the reply is
the dial failure, not `Invalid port number.`. -/
theorem connectHandler_negative_port_dials :
    atoi "-1" = some (-1) ∧
    (connectHandler aliceEnv "u-1" dialFail stChallenged
        (connectReq "example.org" "-1" "alice" proofA)).reply
      = some (.error "Could not connect to example.org:-1") ∧
    (connectHandler aliceEnv "u-1" dialFail stChallenged
        (connectReq "example.org" "-1" "alice" proofA)).events
      = [.authenticate [115] nonceA (nonceA ++ [115]),
         .print "Connecting to example.org:-1...\n",
         .dial "tcp" "example.org:-1"] := by
  decide

/-- C2 fails as stated: `alice` is in the account store, the target
`example.org:80` is valid, and no challenge is on record for her; the reply is
the error envelope `Invalid username`, not `Invalid nonce`. -/
theorem connectHandler_no_challenge_invalid_username :
    aliceEnv.UserGet "alice" = some [115] ∧
    (State.init : State Nat).nonceMap "alice" = none ∧
    atoi "80" = some 80 ∧
    (connectHandler aliceEnv "u-1" dialOk State.init
        (connectReq "example.org" "80" "alice" proofA)).reply
      = some (.error "Invalid username") ∧
    (connectHandler aliceEnv "u-1" dialOk State.init
        (connectReq "example.org" "80" "alice" proofA)).reply
      ≠ some (.error "Invalid nonce") := by
  decide

/-- C2, amended: for a connect request whose target passes the checks and whose
non-empty username resolves in the account store: when no challenge is on
record for the username the reply is the error envelope `Invalid username`;
when a challenge is on record, the proof decodes and
`user.Authenticate(challenge, proof)` is false, the reply is `Invalid nonce`.
Either way nothing is dialed, no worker is started and the state is as before. -/
theorem connectHandler_auth_failure (env : Env U) (newUuid : String)
    (dial : String → String → Option Sock) (st : State Sock) (r : Request)
    (port : Int) (user : U)
    (hhost : r.query "remote_host" ≠ "")
    (hport : atoi (r.query "remote_port") = some port) (hmax : port ≤ 0xFFFF)
    (hname : r.query "username" ≠ "")
    (huser : env.UserGet (r.query "username") = some user) :
    (st.nonceMap (r.query "username") = none →
      connectHandler env newUuid dial st r = ⟨some (.error "Invalid username"), st, []⟩) ∧
    (∀ nonce proof, st.nonceMap (r.query "username") = some nonce →
      env.b64Decode (r.query "proof") = some proof →
      env.Authenticate user nonce proof = false →
      connectHandler env newUuid dial st r
        = ⟨some (.error "Invalid nonce"), st, [.authenticate user nonce proof]⟩) := by
  have hmax2 : ¬ port > 0xFFFF := not_lt.mpr hmax
  refine ⟨fun hnone => ?_, fun nonce proof hnonce hproof hauth => ?_⟩
  · simp [connectHandler, hhost, hport, hmax2, hname, huser, hnone]
  · simp [connectHandler, hhost, hport, hmax2, hname, huser, hnonce, hproof, hauth]

theorem connectHandler_auth_failure_witness :
    connectHandler aliceEnv "u-1" dialOk State.init
        (connectReq "example.org" "80" "alice" proofA)
      = ⟨some (.error "Invalid username"), State.init, []⟩ ∧
    connectHandler aliceEnv "u-1" dialOk stChallenged
        (connectReq "example.org" "80" "alice" "YQ==")
      = ⟨some (.error "Invalid nonce"), stChallenged, [.authenticate [115] nonceA [97]]⟩ :=
  ⟨(connectHandler_auth_failure aliceEnv "u-1" dialOk State.init
      (connectReq "example.org" "80" "alice" proofA) 80 [115]
      (by decide) (by decide) (by decide) (by decide) (by decide)).1 rfl,
   (connectHandler_auth_failure aliceEnv "u-1" dialOk stChallenged
      (connectReq "example.org" "80" "alice" "YQ==") 80 [115]
      (by decide) (by decide) (by decide) (by decide) (by decide)).2 nonceA [97]
      (by decide) (by decide) (by decide)⟩

/-! ## The auth endpoint -/

theorem authHandler_issue (env : Env U) (st : State Sock) (r : Request) (user : U)
    (nonce : Bytes) (huser : env.UserGet (r.query "username") = some user) :
    authHandler env (some nonce) st r
      = ⟨some (.data nonce),
          { st with nonceMap := mapSet st.nonceMap (r.query "username") nonce }, []⟩ := by
  simp [authHandler, huser]

theorem connectHandler_authenticate_event (env : Env U) (newUuid : String)
    (dial : String → String → Option Sock) (st : State Sock) (r : Request)
    (u : U) (n p : Bytes)
    (h : Event.authenticate u n p ∈ (connectHandler env newUuid dial st r).events) :
    env.UserGet (r.query "username") = some u ∧
    st.nonceMap (r.query "username") = some n ∧
    env.b64Decode (r.query "proof") = some p := by
  revert h
  unfold connectHandler
  simp only
  repeat' split
  all_goals simp
  all_goals
    rintro rfl rfl rfl
    simp [*]

theorem connectHandler_reaches_authenticate (env : Env U) (newUuid : String)
    (dial : String → String → Option Sock) (st : State Sock) (r : Request)
    (port : Int) (user : U) (nonce proof : Bytes)
    (hhost : r.query "remote_host" ≠ "")
    (hport : atoi (r.query "remote_port") = some port) (hmax : port ≤ 0xFFFF)
    (hname : r.query "username" ≠ "")
    (huser : env.UserGet (r.query "username") = some user)
    (hnonce : st.nonceMap (r.query "username") = some nonce)
    (hproof : env.b64Decode (r.query "proof") = some proof) :
    Event.authenticate user nonce proof ∈ (connectHandler env newUuid dial st r).events := by
  have hmax2 : ¬ port > 0xFFFF := not_lt.mpr hmax
  unfold connectHandler
  simp only [hhost, hport, hmax2, hname, huser, hnonce, hproof, if_false]
  repeat' split
  all_goals simp

/-- C6: after two successful `authHandler` calls for an account `A` of the
store that drew the challenges `N1` and then `N2`, the challenge table maps `A`
to `N2`; and in a following connect call for `A`, every call of
`user.Authenticate` is made with the account's user, the challenge `N2` and the
decoded proof, and such a call is made whenever the target passes the checks,
`A` is not empty and the proof decodes. -/
theorem authHandler_twice_latest_challenge (env : Env U) (st : State Sock)
    (ra1 ra2 : Request) (A : String) (user : U) (N1 N2 : Bytes)
    (h1 : ra1.query "username" = A) (h2 : ra2.query "username" = A)
    (huser : env.UserGet A = some user) :
    (authHandler env (some N1) st ra1).reply = some (.data N1) ∧
    (authHandler env (some N2) (authHandler env (some N1) st ra1).state ra2).reply
      = some (.data N2) ∧
    (authHandler env (some N2) (authHandler env (some N1) st ra1).state ra2).state.nonceMap A
      = some N2 ∧
    ∀ (newUuid : String) (dial : String → String → Option Sock) (r : Request),
      r.query "username" = A →
      (∀ u n p, Event.authenticate u n p ∈ (connectHandler env newUuid dial
          (authHandler env (some N2) (authHandler env (some N1) st ra1).state ra2).state r).events →
        u = user ∧ n = N2 ∧ env.b64Decode (r.query "proof") = some p) ∧
      (∀ port proof, r.query "remote_host" ≠ "" →
        atoi (r.query "remote_port") = some port → port ≤ 0xFFFF → A ≠ "" →
        env.b64Decode (r.query "proof") = some proof →
        Event.authenticate user N2 proof ∈ (connectHandler env newUuid dial
          (authHandler env (some N2) (authHandler env (some N1) st ra1).state ra2).state r).events) := by
  have hu1 : env.UserGet (ra1.query "username") = some user := by rw [h1]; exact huser
  have hu2 : env.UserGet (ra2.query "username") = some user := by rw [h2]; exact huser
  have hmap : (authHandler env (some N2) (authHandler env (some N1) st ra1).state ra2).state.nonceMap A
      = some N2 := by
    rw [authHandler_issue env _ ra2 user N2 hu2, h2]
    exact mapSet_same _ _ _
  refine ⟨?_, ?_, hmap, ?_⟩
  · rw [authHandler_issue env st ra1 user N1 hu1]
  · rw [authHandler_issue env _ ra2 user N2 hu2]
  · intro newUuid dial r hr
    refine ⟨fun u n p he => ?_, fun port proof hhost hport hmax hA hproof => ?_⟩
    · have h := connectHandler_authenticate_event env newUuid dial _ r u n p he
      rw [hr] at h
      rw [huser] at h
      rw [hmap] at h
      exact ⟨(Option.some.inj h.1).symm, (Option.some.inj h.2.1).symm, h.2.2⟩
    · exact connectHandler_reaches_authenticate env newUuid dial _ r port user N2 proof
        hhost hport hmax (by rw [hr]; exact hA) (by rw [hr]; exact huser)
        (by rw [hr]; exact hmap) hproof

theorem authHandler_twice_latest_challenge_witness :
    (authHandler aliceEnv (some nonceB)
        (authHandler aliceEnv (some nonceA) (State.init : State Nat) authReq).state
        authReq).state.nonceMap "alice" = some nonceB ∧
    Event.authenticate [115] nonceB (nonceA ++ [115]) ∈
      (connectHandler aliceEnv "u-1" dialOk
        (authHandler aliceEnv (some nonceB)
          (authHandler aliceEnv (some nonceA) (State.init : State Nat) authReq).state
          authReq).state
        (connectReq "example.org" "80" "alice" proofA)).events :=
  have h := authHandler_twice_latest_challenge aliceEnv (State.init : State Nat) authReq authReq
    "alice" [115] nonceA nonceB rfl rfl (by decide)
  ⟨h.2.2.1, (h.2.2.2 "u-1" dialOk (connectReq "example.org" "80" "alice" proofA) rfl).2
    80 (nonceA ++ [115]) (by decide) (by decide) (by decide) (by decide) (by decide)⟩

/-! ## Push, and sequential runs of Push and Pull -/

theorem syncHandler_push (env : Env U) (st : State Sock) (r : Request) (w : worker Sock)
    (b64 : String) (more : List String) (data : Bytes)
    (hw : st.workerMap (r.query "uuid") = some w) (hm : r.method = "POST")
    (hf : r.form "data" = some (b64, more)) (hd : env.b64Decode b64 = some data)
    (hroom : w.commandChannel.buf.length < w.commandChannel.cap) :
    syncHandler env st r =
      ⟨some (.ok "Sent."),
        { st with workerMap := (mapSet st.workerMap (r.query "uuid")
            { w with commandChannel :=
              { w.commandChannel with buf := w.commandChannel.buf ++ [dataCommand data] } }) },
        [.send (r.query "uuid") (dataCommand data)]⟩ := by
  simp [syncHandler, hw, hm, hf, hd, Chan.send, hroom, dataCommand]

theorem syncHandler_push_full (env : Env U) (st : State Sock) (r : Request) (w : worker Sock)
    (b64 : String) (more : List String) (data : Bytes)
    (hw : st.workerMap (r.query "uuid") = some w) (hm : r.method = "POST")
    (hf : r.form "data" = some (b64, more)) (hd : env.b64Decode b64 = some data)
    (hfull : ¬ w.commandChannel.buf.length < w.commandChannel.cap) :
    syncHandler env st r = ⟨none, st, []⟩ := by
  simp [syncHandler, hw, hm, hf, hd, Chan.send, hfull]

theorem syncRun_append (env : Env U) (rs1 rs2 : List Request) :
    ∀ st : State Sock, syncRun env st (rs1 ++ rs2) =
      ((syncRun env st rs1).1 ++ (syncRun env (syncRun env st rs1).2 rs2).1,
        (syncRun env (syncRun env st rs1).2 rs2).2) := by
  induction rs1 with
  | nil => intro st; simp [syncRun]
  | cons r rs ih => intro st; simp [syncRun, ih]

theorem syncRun_pushes (env : Env U) (u : String) (ds : List String) (ps : List Bytes)
    (hdec : List.Forall₂ (fun d p => env.b64Decode d = some p) ds ps) :
    ∀ (st : State Sock) (w : worker Sock), st.workerMap u = some w →
      w.commandChannel.buf.length + ps.length ≤ w.commandChannel.cap →
      syncRun env st (ds.map (pushReq u)) =
        (List.replicate ps.length (some (.ok "Sent.")),
          { st with workerMap := (mapSet st.workerMap u
              { w with commandChannel :=
                { w.commandChannel with buf := w.commandChannel.buf ++ ps.map dataCommand } }) }) := by
  induction hdec with
  | nil =>
    intro st w hw _
    simp [syncRun, mapSet_self _ _ _ hw]
  | @cons d p ds ps hd _ ih =>
    intro st w hw hroom
    have hq : (pushReq u d).query "uuid" = u := by simp [pushReq]
    have hlt : w.commandChannel.buf.length < w.commandChannel.cap := by
      simp only [List.length_cons] at hroom; omega
    have hstep := syncHandler_push env st (pushReq u d) w d [] p (by rw [hq]; exact hw) rfl
      (by simp [pushReq]) hd hlt
    rw [hq] at hstep
    have hnext := ih
      { st with workerMap := (mapSet st.workerMap u
          { w with commandChannel :=
            { w.commandChannel with buf := w.commandChannel.buf ++ [dataCommand p] } }) }
      { w with commandChannel :=
          { w.commandChannel with buf := w.commandChannel.buf ++ [dataCommand p] } }
      (mapSet_same _ _ _)
      (by simp only [List.length_append, List.length_cons, List.length_nil] at hroom ⊢; omega)
    simp only [List.map_cons, syncRun, hstep, hnext, List.length_cons, List.replicate_succ,
      mapSet_mapSet, List.append_assoc, List.singleton_append]

theorem syncRun_pulls (env : Env U) (u : String) (rs : List workerResponse) :
    ∀ (st : State Sock) (w : worker Sock) (rest : List workerResponse),
      st.workerMap u = some w → w.responseChannel.buf = rs ++ rest →
      syncRun env st (List.replicate rs.length (pullReq u)) =
        (rs.map (fun r => some (replyOf r)),
          { st with workerMap := (mapSet st.workerMap u
              { w with responseChannel := { w.responseChannel with buf := rest } }) }) := by
  induction rs with
  | nil =>
    intro st w rest hw hbuf
    have hw2 : ({ w with responseChannel := { w.responseChannel with buf := rest } } : worker Sock)
        = w := by
      simp at hbuf
      rw [← hbuf]
    simp [syncRun, hw2, mapSet_self _ _ _ hw]
  | cons r1 rs ih =>
    intro st w rest hw hbuf
    have hq : (pullReq u).query "uuid" = u := by simp [pullReq]
    have hstep := syncHandler_pull env st (pullReq u) w r1 (rs ++ rest) (by rw [hq]; exact hw)
      (by simp [pullReq]) (by simpa using hbuf)
    rw [hq] at hstep
    have hreply : (syncHandler env st (pullReq u)).reply = some (replyOf r1) := by
      cases hr : r1.response
      · rw [hstep.2.1 hr]; simp [replyOf, hr]
      · rw [hstep.2.2.1 hr]; simp [replyOf, hr]
    have hnext := ih
      { st with workerMap := (mapSet st.workerMap u
          { w with responseChannel := { w.responseChannel with buf := rs ++ rest } }) }
      { w with responseChannel := { w.responseChannel with buf := rs ++ rest } } rest
      (mapSet_same _ _ _) rfl
    simp only [List.length_cons, List.replicate_succ, syncRun, hstep.1, hreply, hnext,
      List.map_cons, mapSet_mapSet]

/-- C5 fails as stated: in the reachable state where session `u-1` is registered
and its relay worker has enqueued the byte `x` read from the remote socket, one
Push of the payload `a` (base64 `YQ==`) followed by one Pull returns the data
envelope `x`, not `a`: Push fills the inbound queue and Pull empties the
outbound queue. -/
theorem syncRun_push_pull_not_echo :
    Reachable aliceEnv stRemoteSpoke ∧
    stRemoteSpoke.workerMap "u-1"
      = some ⟨7, ⟨10, []⟩, ⟨10, [⟨.response_data, [120], ""⟩]⟩, "u-1"⟩ ∧
    aliceEnv.b64Decode "YQ==" = some [97] ∧
    (syncRun aliceEnv stRemoteSpoke [pushReq "u-1" "YQ==", pullReq "u-1"]).1
      = [some (.ok "Sent."), some (.data [120])] ∧
    (syncRun aliceEnv stRemoteSpoke [pushReq "u-1" "YQ==", pullReq "u-1"]).1
      ≠ [some (.ok "Sent."), some (.data [97])] := by
  refine ⟨?_, by decide, by decide, by decide, by decide⟩
  exact Reachable.step (Reachable.step (Reachable.step Reachable.init
    (Step.auth State.init (some nonceA) authReq))
    (Step.connect stChallenged "u-1" dialOk (connectReq "example.org" "80" "alice" proofA)))
    (Step.put stSession "u-1" ⟨.response_data, [120], ""⟩)

/-- C5, amended: for a registered session whose inbound queue has room for `n`
more commands and whose outbound queue starts with the responses `r1..rn`, `n`
sequential Push calls with data = base64 of `P1..Pn` followed by `n` Pull calls
reply with `n` acknowledgements `Sent.` and then with `r1..rn` in that order
(a "data" response as a data envelope with its bytes, a "quit" response as a
quit envelope); afterwards the inbound queue is its old content followed by the
"data" commands `P1..Pn` in that order, and the outbound queue has lost exactly
`r1..rn`. -/
theorem syncRun_push_then_pull (env : Env U) (u : String) (st : State Sock) (w : worker Sock)
    (ds : List String) (ps : List Bytes) (rs rest : List workerResponse)
    (hw : st.workerMap u = some w)
    (hdec : List.Forall₂ (fun d p => env.b64Decode d = some p) ds ps)
    (hroom : w.commandChannel.buf.length + ps.length ≤ w.commandChannel.cap)
    (hout : w.responseChannel.buf = rs ++ rest) (hlen : rs.length = ps.length) :
    syncRun env st (ds.map (pushReq u) ++ List.replicate ps.length (pullReq u)) =
      (List.replicate ps.length (some (.ok "Sent.")) ++ rs.map (fun r => some (replyOf r)),
        { st with workerMap := (mapSet st.workerMap u
            { w with
              commandChannel :=
                { w.commandChannel with buf := w.commandChannel.buf ++ ps.map dataCommand }
              responseChannel := { w.responseChannel with buf := rest } }) }) := by
  have hpush := syncRun_pushes env u ds ps hdec st w hw hroom
  have hpull := syncRun_pulls env u rs
    { st with workerMap := (mapSet st.workerMap u
        { w with commandChannel :=
          { w.commandChannel with buf := w.commandChannel.buf ++ ps.map dataCommand } }) }
    { w with commandChannel :=
        { w.commandChannel with buf := w.commandChannel.buf ++ ps.map dataCommand } } rest
    (mapSet_same _ _ _) hout
  rw [hlen] at hpull
  rw [syncRun_append, hpush]
  simp only [hpull, mapSet_mapSet]

theorem syncRun_push_then_pull_witness :
    syncRun aliceEnv stRemoteSpoke
        (["YQ=="].map (pushReq "u-1") ++ List.replicate [[97]].length (pullReq "u-1")) =
      (List.replicate [[97]].length (some (.ok "Sent."))
          ++ [(⟨.response_data, [120], ""⟩ : workerResponse)].map (fun r => some (replyOf r)),
        { stRemoteSpoke with workerMap := (mapSet stRemoteSpoke.workerMap "u-1"
            ⟨7, ⟨10, [] ++ [[97]].map dataCommand⟩, ⟨10, []⟩, "u-1"⟩) }) :=
  syncRun_push_then_pull aliceEnv "u-1" stRemoteSpoke
    ⟨7, ⟨10, []⟩, ⟨10, [⟨.response_data, [120], ""⟩]⟩, "u-1"⟩ ["YQ=="] [[97]]
    [⟨.response_data, [120], ""⟩] [] (by decide)
    (List.Forall₂.cons (by decide) List.Forall₂.nil) (by decide) rfl rfl

/-! ## The queue bound -/

theorem queuesBounded_mapSet (st : State Sock) (u : String) (w : worker Sock)
    (h : QueuesBounded st)
    (hw : w.commandChannel.cap = 10 ∧ w.responseChannel.cap = 10 ∧
      w.commandChannel.buf.length ≤ 10 ∧ w.responseChannel.buf.length ≤ 10) :
    QueuesBounded { st with workerMap := mapSet st.workerMap u w } := by
  intro x wx hx
  by_cases hxu : x = u
  · subst hxu
    simp only [mapSet_same, Option.some.injEq] at hx
    subst hx
    exact hw
  · simp only [mapSet_other _ _ _ _ hxu] at hx
    exact h x wx hx

theorem authHandler_workerMap (env : Env U) (rnd : Option Bytes) (st : State Sock) (r : Request) :
    (authHandler env rnd st r).state.workerMap = st.workerMap := by
  unfold authHandler
  simp only
  repeat' split
  all_goals rfl

theorem queuesBounded_connectHandler (env : Env U) (newUuid : String)
    (dial : String → String → Option Sock) (st : State Sock) (r : Request)
    (h : QueuesBounded st) : QueuesBounded (connectHandler env newUuid dial st r).state := by
  unfold connectHandler
  simp only
  repeat' split
  all_goals first
    | exact h
    | exact queuesBounded_mapSet st _ _ h (by simp [Chan.make])

theorem queuesBounded_syncHandler (env : Env U) (st : State Sock) (r : Request)
    (h : QueuesBounded st) : QueuesBounded (syncHandler env st r).state := by
  unfold syncHandler
  simp only
  split
  · rename_i w hw
    have hb := h _ w hw
    split
    · split
      · split
        · exact h
        · split
          · exact h
          · rename_i ch hch
            simp only [Chan.send] at hch
            split at hch
            · cases hch
              refine queuesBounded_mapSet st _ _ h ?_
              simp only [List.length_append, List.length_singleton]
              omega
            · cases hch
      · exact h
    · split
      · exact h
      · rename_i resp ch hch
        simp only [Chan.recv] at hch
        have hbound : QueuesBounded
            { st with workerMap := (mapSet st.workerMap (r.query "uuid")
                { w with responseChannel := ch }) } := by
          refine queuesBounded_mapSet st _ _ h ?_
          split at hch
          · cases hch
          · rename_i x rest hbuf
            cases hch
            have := hb.2.2.2
            rw [hbuf] at this
            simp only [List.length_cons] at this
            simp only
            omega
        split <;> exact hbound
  · exact h

theorem queuesBounded_workerTake (st : State Sock) (u : String) (h : QueuesBounded st) :
    QueuesBounded (workerTake st u) := by
  unfold workerTake
  split
  · exact h
  · rename_i w hw
    have hb := h _ w hw
    split
    · exact h
    · rename_i c ch hch
      simp only [Chan.recv] at hch
      refine queuesBounded_mapSet st _ _ h ?_
      split at hch
      · cases hch
      · rename_i x rest hbuf
        cases hch
        have := hb.2.2.1
        rw [hbuf] at this
        simp only [List.length_cons] at this
        simp only
        omega

theorem queuesBounded_workerPut (st : State Sock) (u : String) (resp : workerResponse)
    (h : QueuesBounded st) : QueuesBounded (workerPut st u resp) := by
  unfold workerPut
  split
  · exact h
  · rename_i w hw
    have hb := h _ w hw
    split
    · exact h
    · rename_i ch hch
      simp only [Chan.send] at hch
      split at hch
      · cases hch
        refine queuesBounded_mapSet st _ _ h ?_
        simp only [List.length_append, List.length_singleton]
        omega
      · cases hch

theorem queuesBounded_of_reachable (env : Env U) (st : State Sock) (h : Reachable env st) :
    QueuesBounded st := by
  induction h with
  | init => intro u w hw; simp [State.init] at hw
  | step _ hstep ih =>
    cases hstep with
    | auth rnd r =>
      intro u w hw
      rw [authHandler_workerMap] at hw
      exact ih u w hw
    | connect newUuid dial r => exact queuesBounded_connectHandler env newUuid dial _ r ih
    | sync r => exact queuesBounded_syncHandler env _ r ih
    | take u => exact queuesBounded_workerTake _ u ih
    | put u resp => exact queuesBounded_workerPut _ u resp ih

/-- C8: in every reachable state each registered session's inbound queue holds
at most 10 commands.  A Push with well-formed base64 data on a registered
session of a reachable state completes exactly when the inbound queue holds
fewer than 10 commands; it then appends the one "data" command carrying the
decoded bytes at the tail, changes nothing else (the outbound queue in
particular) and replies with the acknowledgement `Sent.`; otherwise it is
suspended and the state is as before.  Either way the outbound queue of the
session is untouched and the bound holds in the state the call leaves. -/
theorem syncHandler_push_bounded (env : Env U) (st : State Sock) (hst : Reachable env st)
    (r : Request) (w : worker Sock) (b64 : String) (more : List String) (data : Bytes)
    (hw : st.workerMap (r.query "uuid") = some w) (hm : r.method = "POST")
    (hf : r.form "data" = some (b64, more)) (hd : env.b64Decode b64 = some data) :
    (∀ u2 w2, st.workerMap u2 = some w2 → w2.commandChannel.buf.length ≤ 10) ∧
    ((syncHandler env st r).reply ≠ none ↔ w.commandChannel.buf.length < 10) ∧
    (w.commandChannel.buf.length < 10 →
      (syncHandler env st r).reply = some (.ok "Sent.") ∧
      (syncHandler env st r).state =
        { st with workerMap := (mapSet st.workerMap (r.query "uuid")
            { w with commandChannel :=
              { w.commandChannel with
                buf := w.commandChannel.buf ++ [⟨.command_data, data⟩] } }) }) ∧
    (¬ w.commandChannel.buf.length < 10 → (syncHandler env st r).state = st) ∧
    (∃ w2, (syncHandler env st r).state.workerMap (r.query "uuid") = some w2 ∧
      w2.responseChannel = w.responseChannel) ∧
    (∀ u2 w2, (syncHandler env st r).state.workerMap u2 = some w2 →
      w2.commandChannel.buf.length ≤ 10) := by
  have hinv := queuesBounded_of_reachable env st hst
  have hcap : w.commandChannel.cap = 10 := (hinv _ w hw).1
  have hafter := queuesBounded_syncHandler env st r hinv
  refine ⟨fun u2 w2 h2 => (hinv u2 w2 h2).2.2.1, ?_, ?_, ?_, ?_,
    fun u2 w2 h2 => (hafter u2 w2 h2).2.2.1⟩
  · by_cases hlt : w.commandChannel.buf.length < 10
    · rw [syncHandler_push env st r w b64 more data hw hm hf hd (by rw [hcap]; exact hlt)]
      simp [hlt]
    · rw [syncHandler_push_full env st r w b64 more data hw hm hf hd (by rw [hcap]; exact hlt)]
      simp [hlt]
  · intro hlt
    rw [syncHandler_push env st r w b64 more data hw hm hf hd (by rw [hcap]; exact hlt)]
    exact ⟨rfl, rfl⟩
  · intro hlt
    rw [syncHandler_push_full env st r w b64 more data hw hm hf hd (by rw [hcap]; exact hlt)]
  · by_cases hlt : w.commandChannel.buf.length < 10
    · rw [syncHandler_push env st r w b64 more data hw hm hf hd (by rw [hcap]; exact hlt)]
      exact ⟨_, mapSet_same _ _ _, rfl⟩
    · rw [syncHandler_push_full env st r w b64 more data hw hm hf hd (by rw [hcap]; exact hlt)]
      exact ⟨w, hw, rfl⟩

theorem syncHandler_push_bounded_witness :
    (syncHandler aliceEnv stSession (pushReq "u-1" "YQ==")).reply = some (.ok "Sent.") ∧
    (syncHandler aliceEnv stSession (pushReq "u-1" "YQ==")).state =
      { stSession with workerMap := (mapSet stSession.workerMap "u-1"
          ⟨7, ⟨10, [] ++ [⟨.command_data, [97]⟩]⟩, ⟨10, []⟩, "u-1"⟩) } :=
  (syncHandler_push_bounded aliceEnv stSession
    (Reachable.step (Reachable.step Reachable.init
      (Step.auth State.init (some nonceA) authReq))
      (Step.connect stChallenged "u-1" dialOk (connectReq "example.org" "80" "alice" proofA)))
    (pushReq "u-1" "YQ==") ⟨7, ⟨10, []⟩, ⟨10, []⟩, "u-1"⟩ "YQ==" [] [97]
    (by decide) rfl (by decide) (by decide)).2.2.1 (by decide)

end Crowbard
